import Mathlib

/-!
Verification of the naive_rag_aws backend (src/backend/main.py) against its
natural-language specification.

Shallow embedding conventions:
* Document text is modelled as `List Char` (the Python `str` of the
  extracted text); human-facing messages stay `String`.
* Python `str.strip()` is modelled by `pyStrip`, restricted to the ASCII
  whitespace characters Python strips (space, tab, newline, carriage return,
  vertical tab, form feed); the wider Unicode space classes Python also
  strips are not exercised by any claim.
* The chunking `while` loop of `_chunk_text` is embedded with explicit fuel
  (`chunk_loop`), returning `none` when the fuel is exhausted, so statements
  about non-termination of the loop for invalid configurations are
  expressible.  `chunk_text fuel=len+1` is the terminating entry point; for
  every valid configuration (`overlap < chunk_size`) that fuel is shown
  sufficient.
* Floating point scores are idealised as rationals; `round(x, 4)` becomes
  `pyRound4`, rational round-half-to-even at 4 decimal places.
* External capabilities (sentence-transformer encoding, qdrant search, LLM
  generation, PDF extraction) are universally quantified function parameters;
  the handlers under verification are the code between those calls.
-/

set_option autoImplicit false

namespace RagBackend

/-- ASCII whitespace recognised by Python `str.strip()` (the claims only
exercise these characters). -/
def isSpace (c : Char) : Bool :=
  c == ' ' || c == '\t' || c == '\n' || c == '\r' || c == '\x0b' || c == '\x0c'

/-- Python `s.strip()`: drop whitespace from both ends. -/
def pyStrip (s : List Char) : List Char :=
  ((s.dropWhile isSpace).reverse.dropWhile isSpace).reverse

/-- Python slice `t[start : start + count]` for a non-negative `start`
(the chunker only forms slices with non-negative bounds). -/
def pySlice (t : List Char) (start count : Nat) : List Char :=
  (t.drop start).take count

/-- The `while start < len(text)` loop of `_chunk_text` (main.py:142-146),
with explicit fuel.  Each iteration records `text[start:start+cs].strip()`
and advances `start` by the stride `cs - ov`; `none` means the fuel ran out
before the loop exited. -/
def chunk_loop (cs ov : Nat) (t : List Char) : Nat → Nat → Option (List (List Char))
  | 0, _ => none
  | fuel + 1, start =>
    if start < t.length then
      match chunk_loop cs ov t fuel (start + (cs - ov)) with
      | none => none
      | some rest => some (pyStrip (pySlice t start cs) :: rest)
    else
      some []

/-- `_chunk_text` (main.py:140-147) at an explicit fuel bound: run the loop,
then drop every chunk of length `<= 20`. -/
def chunk_text_fuel (cs ov : Nat) (t : List Char) (fuel : Nat) :
    Option (List (List Char)) :=
  (chunk_loop cs ov t fuel 0).map (fun l => l.filter (fun c => 20 < c.length))

/-- `_chunk_text` with fuel `len(text) + 1`, which suffices whenever
`overlap < chunk_size` (proved below). -/
def chunk_text (cs ov : Nat) (t : List Char) : Option (List (List Char)) :=
  chunk_text_fuel cs ov t (t.length + 1)

/-- Number of loop iterations that remain when the offset is `start`:
the count of `k` with `start + k * s < len`. -/
def winCount (len s start : Nat) : Nat :=
  if start < len then (len - start - 1) / s + 1 else 0

/-- The stripped windows the loop appends from offset `start` on. -/
def winList (cs ov : Nat) (t : List Char) (start : Nat) : List (List Char) :=
  (List.range (winCount t.length (cs - ov) start)).map
    (fun k => pyStrip (pySlice t (start + k * (cs - ov)) cs))

theorem winCount_step {len s : Nat} (hs : 0 < s) {start : Nat}
    (h : start < len) : winCount len s start = winCount len s (start + s) + 1 := by
  unfold winCount
  rw [if_pos h]
  by_cases h2 : start + s < len
  · rw [if_pos h2]
    have hle : s ≤ len - start - 1 := by omega
    have : len - start - 1 = (len - (start + s) - 1) + s := by omega
    rw [this, Nat.add_div_right _ hs]
  · rw [if_neg h2]
    have : len - start - 1 < s := by omega
    rw [Nat.div_eq_of_lt this]

theorem winCount_zero {len s start : Nat} (h : ¬ start < len) :
    winCount len s start = 0 := by
  unfold winCount
  exact if_neg h

theorem winList_step {cs ov : Nat} {t : List Char} (hs : 0 < cs - ov)
    {start : Nat} (h : start < t.length) :
    winList cs ov t start =
      pyStrip (pySlice t start cs) :: winList cs ov t (start + (cs - ov)) := by
  unfold winList
  rw [winCount_step hs h, List.range_succ_eq_map, List.map_cons, List.map_map]
  congr 1
  · rw [Nat.zero_mul, Nat.add_zero]
  · apply List.map_congr_left
    intro k _
    have hstep : start + Nat.succ k * (cs - ov) = start + (cs - ov) + k * (cs - ov) := by
      rw [Nat.succ_mul]; omega
    simp only [Function.comp_apply, hstep]

/-- The loop computes exactly the `winList` windows whenever the stride is
positive and the fuel exceeds the remaining iteration count. -/
theorem chunk_loop_eq (cs ov : Nat) (t : List Char) (hs : 0 < cs - ov) :
    ∀ fuel start, winCount t.length (cs - ov) start < fuel →
      chunk_loop cs ov t fuel start = some (winList cs ov t start) := by
  intro fuel
  induction fuel with
  | zero => intro start h; omega
  | succ fuel ih =>
    intro start h
    unfold chunk_loop
    by_cases hlt : start < t.length
    · rw [if_pos hlt]
      have hcnt : winCount t.length (cs - ov) start =
          winCount t.length (cs - ov) (start + (cs - ov)) + 1 :=
        winCount_step hs hlt
      have : winCount t.length (cs - ov) (start + (cs - ov)) < fuel := by omega
      rw [ih _ this, winList_step hs hlt]
    · rw [if_neg hlt]
      unfold winList
      rw [winCount_zero hlt, List.range_zero, List.map_nil]

theorem winCount_le_len (len s : Nat) : winCount len s 0 ≤ len := by
  unfold winCount
  by_cases h : 0 < len
  · rw [if_pos h]
    have := Nat.div_le_self (len - 0 - 1) s
    omega
  · rw [if_neg h]
    omega

/-- For a valid configuration the default fuel `len + 1` makes the loop
finish and produce the windows from offset 0. -/
theorem chunk_text_eq (cs ov : Nat) (t : List Char) (hov : ov < cs) :
    chunk_text cs ov t =
      some ((winList cs ov t 0).filter (fun c => 20 < c.length)) := by
  have hs : 0 < cs - ov := by omega
  unfold chunk_text chunk_text_fuel
  rw [chunk_loop_eq cs ov t hs (t.length + 1) 0
    (by have := winCount_le_len t.length (cs - ov); omega)]
  rfl

theorem winCount_lt_iff {len s : Nat} (hs : 0 < s) (k : Nat) :
    k < winCount len s 0 ↔ k * s < len := by
  unfold winCount
  by_cases h : 0 < len
  · rw [if_pos h]
    simp only [Nat.sub_zero]
    constructor
    · intro hk
      have hk2 : k ≤ (len - 1) / s := by omega
      have := (Nat.le_div_iff_mul_le hs).mp hk2
      omega
    · intro hk
      have hk2 : k * s ≤ len - 1 := by omega
      have := (Nat.le_div_iff_mul_le hs).mpr hk2
      omega
  · rw [if_neg h]
    constructor
    · omega
    · intro hk
      have : 0 < len := by
        have : 0 ≤ k * s := Nat.zero_le _
        omega
      omega

/-- C1: for `0 <= overlap < chunk_size` the chunker returns exactly the
whitespace-trimmed windows `text[k*stride : k*stride + chunk_size]` for
`k = 0, 1, ...` taken while `k*stride < len(text)` (stride
`= chunk_size - overlap`), in window order, with every trimmed window of
length `<= 20` discarded.  The output is a pure function of the text and the
configuration, so it is fully determined by them; `0 <= overlap` is inherent
in the `Nat` model of the configuration. -/
theorem c1_chunker_windows (cs ov : Nat) (t : List Char) (hov : ov < cs) :
    chunk_text cs ov t =
      some (((List.range (winCount t.length (cs - ov) 0)).map
        (fun k => pyStrip (pySlice t (k * (cs - ov)) cs))).filter
          (fun c => 20 < c.length))
    ∧ (∀ k : Nat, k < winCount t.length (cs - ov) 0 ↔ k * (cs - ov) < t.length) := by
  have hs : 0 < cs - ov := by omega
  refine ⟨?_, fun k => winCount_lt_iff hs k⟩
  rw [chunk_text_eq cs ov t hov]
  unfold winList
  simp only [Nat.zero_add]

def t0 : List Char := ("abcdefghijklmnopqrstuvwxyz0123").toList

theorem c1_chunker_windows_witness :
    (5 < 25) ∧
    (chunk_text 25 5 t0 =
      some (((List.range (winCount t0.length (25 - 5) 0)).map
        (fun k => pyStrip (pySlice t0 (k * (25 - 5)) 25))).filter
          (fun c => 20 < c.length))
    ∧ (∀ k : Nat, k < winCount t0.length (25 - 5) 0 ↔ k * (25 - 5) < t0.length)) :=
  ⟨by decide, c1_chunker_windows 25 5 t0 (by decide)⟩

/-- C9: under the precondition `overlap < chunk_size` (positive stride) the
chunking computation terminates — the default fuel `len(text) + 1` already
makes the loop exit — and yields a finite list of chunks. -/
theorem c9_chunker_terminates (cs ov : Nat) (t : List Char) (hov : ov < cs) :
    ∃ chunks : List (List Char), chunk_text cs ov t = some chunks :=
  ⟨_, chunk_text_eq cs ov t hov⟩

def t9 : List Char := ("some short document text").toList

theorem c9_chunker_terminates_witness :
    (7 < 32) ∧ ∃ chunks : List (List Char), chunk_text 32 7 t9 = some chunks :=
  ⟨by decide, c9_chunker_terminates 32 7 t9 (by decide)⟩

theorem chunk_loop_stuck (cs : Nat) (t : List Char) (hne : t ≠ []) :
    ∀ fuel, chunk_loop cs cs t fuel 0 = none := by
  intro fuel
  induction fuel with
  | zero => rfl
  | succ fuel ih =>
    unfold chunk_loop
    rw [if_pos (List.length_pos.mpr hne)]
    have h0 : 0 + (cs - cs) = 0 := by omega
    rw [h0, ih]

/-- C3 (evidence for the code bug): `_chunk_text` performs no validation of
the `0 <= overlap < chunk_size` constraint and has no `ConfigError` path at
all (no error constructor appears in its embedding); at the violating
configuration `overlap = chunk_size` on any non-empty text the loop offset
never advances, so the loop never exits: the fuel-indexed embedding returns
`none` for every fuel bound. -/
theorem c3_chunker_no_config_error (cs : Nat) (t : List Char) (hne : t ≠ []) :
    ∀ fuel, chunk_text_fuel cs cs t fuel = none := by
  intro fuel
  unfold chunk_text_fuel
  rw [chunk_loop_stuck cs t hne fuel]
  rfl

theorem c3_chunker_no_config_error_witness :
    (("hello").toList ≠ []) ∧ chunk_text_fuel 512 512 (("hello").toList) 1000 = none :=
  ⟨by decide, c3_chunker_no_config_error 512 (("hello").toList) (by decide) 1000⟩

/-- Qdrant payload of an indexed point (a JSON dict in the source); an
absent key is `none`, matching `payload.get(key, default)`. -/
structure Payload where
  text : Option (List Char)
  source : Option (List Char)
  document_id : Option String
  chunk_id : Option Nat
deriving DecidableEq

/-- Qdrant `PointStruct`: id, vector and payload. -/
structure Point where
  id : String
  vector : List ℚ
  payload : Payload
deriving DecidableEq

/-- A qdrant search hit: similarity score plus the stored payload. -/
structure Hit where
  score : ℚ
  payload : Payload
deriving DecidableEq

/-- One element of the list `_retrieve` returns (a dict in the source). -/
structure RetrievedSource where
  score : ℚ
  text : List Char
  source : List Char
  chunk_id : Nat
deriving DecidableEq

/-- Round-half-to-even to an integer: Python `round()` on an exact value.
Scores are idealised as rationals; the representation error of Python's
binary floats is outside this model. -/
def pyRoundHalfEven (q : ℚ) : Int :=
  if q - Int.floor q < 1/2 then Int.floor q
  else if 1/2 < q - Int.floor q then Int.floor q + 1
  else if Int.floor q % 2 = 0 then Int.floor q else Int.floor q + 1

/-- Python `round(x, 4)` on an exact value. -/
def pyRound4 (q : ℚ) : ℚ := (pyRoundHalfEven (q * 10000) : ℚ) / 10000

/-- The dict `_retrieve` builds for one hit (main.py:163-171). -/
def hitToSource (h : Hit) : RetrievedSource :=
  { score := pyRound4 h.score
    text := h.payload.text.getD []
    source := h.payload.source.getD (("unknown").toList)
    chunk_id := h.payload.chunk_id.getD 0 }

/-- `_retrieve` (main.py:154-171): embed the query (`_embed([query])[0]`,
the single-text form of the encoding capability, is the parameter
`embedOne`), search qdrant with the resulting vector and `top_k`, and map
every hit to its result dict in the order the index returned. -/
def retrieve (embedOne : List Char → List ℚ) (search : List ℚ → Nat → List Hit)
    (query : List Char) (top_k : Nat) : List RetrievedSource :=
  (search (embedOne query) top_k).map hitToSource

/-- C4: `_retrieve` maps each hit of the index, preserving the index order,
to a record whose score is the hit score rounded to 4 decimal places and
whose `text`, `source` and `chunk_id` come from the payload with defaults
`""`, `"unknown"` and `0`; when the index returns no hits the result is the
empty list, not an error. -/
theorem c4_retrieve_maps_hits (embedOne : List Char → List ℚ)
    (search : List ℚ → Nat → List Hit) (query : List Char) (top_k : Nat) :
    (∀ i : Nat, (retrieve embedOne search query top_k)[i]? =
      ((search (embedOne query) top_k)[i]?).map (fun h =>
        { score := pyRound4 h.score
          text := h.payload.text.getD []
          source := h.payload.source.getD (("unknown").toList)
          chunk_id := h.payload.chunk_id.getD 0 }))
    ∧ (retrieve embedOne search query top_k).length =
        (search (embedOne query) top_k).length
    ∧ (search (embedOne query) top_k = [] →
        retrieve embedOne search query top_k = []) := by
  refine ⟨fun i => ?_, ?_, fun h => ?_⟩
  · rw [retrieve, List.getElem?_map]; rfl
  · rw [retrieve, List.length_map]
  · rw [retrieve, h]; rfl

def hit0 : Hit :=
  { score := 1/3
    payload := { text := some (("the retrieved chunk text").toList)
                 source := none
                 document_id := some ("d")
                 chunk_id := none } }

theorem c4_retrieve_maps_hits_witness :
    (retrieve (fun _ => []) (fun _ _ => []) (("q").toList) 5 = []) ∧
    (retrieve (fun _ => []) (fun _ _ => [hit0]) (("q").toList) 5)[0]? =
      (([hit0] : List Hit)[0]?).map (fun h =>
        { score := pyRound4 h.score
          text := h.payload.text.getD []
          source := h.payload.source.getD (("unknown").toList)
          chunk_id := h.payload.chunk_id.getD 0 }) :=
  ⟨(c4_retrieve_maps_hits (fun _ => []) (fun _ _ => []) (("q").toList) 5).2.2 rfl,
   (c4_retrieve_maps_hits (fun _ => []) (fun _ _ => [hit0]) (("q").toList) 5).1 0⟩

def fallbackAnswer : String :=
  "No relevant documents found. Please index some documents first."

def emptyQueryDetail : String := "Query cannot be empty."

/-- The fixed separator of the grounding context (main.py:275). -/
def contextSep : List Char := ("\n\n---\n\n").toList

/-- The grounding context `chat` builds (main.py:275): the sources' `text`
fields, in rank order, joined by the separator. -/
def joinContext (sources : List RetrievedSource) : List Char :=
  List.intercalate contextSep (sources.map (fun s => s.text))

/-- The user turn `_generate` builds (main.py:180):
`f"Context:\n{context}\n\nQuestion: {query}"`. -/
def userContent (query context : List Char) : List Char :=
  ("Context:\n").toList ++ context ++ ("\n\nQuestion: ").toList ++ query

/-- The fixed system directive of `_generate` (main.py:176-179). -/
def systemPrompt : String :=
  "You are a helpful assistant. Answer the user\x27s question using ONLY the provided context. If the answer is not in the context, say so."

/-- Result of the `POST /chat` handler: an `HTTPException` or a
`ChatResponse`. -/
inductive ChatOutcome where
  | httpError (status : Nat) (detail : String)
  | response (answer : String) (sources : List RetrievedSource)
deriving DecidableEq

/-- One invocation of the generation capability: the arguments `chat`
passes to `_generate` (main.py:276). -/
structure GenCall where
  query : List Char
  context : List Char
  max_new_tokens : Nat
deriving DecidableEq

/-- The `POST /chat` handler (main.py:257-279), instrumented with the list
of generation-capability invocations it performs, so that "generation was
not invoked" is expressible. -/
def chat (embedOne : List Char → List ℚ) (search : List ℚ → Nat → List Hit)
    (generate : GenCall → String) (query : List Char)
    (top_k max_new_tokens : Nat) : ChatOutcome × List GenCall :=
  if (pyStrip query).isEmpty then
    (ChatOutcome.httpError 400 emptyQueryDetail, [])
  else
    let sources := retrieve embedOne search query top_k
    if sources.isEmpty then
      (ChatOutcome.response fallbackAnswer [], [])
    else
      let context := joinContext sources
      (ChatOutcome.response (generate ⟨query, context, max_new_tokens⟩) sources,
        [⟨query, context, max_new_tokens⟩])

/-- C2: when the retrieval step yields no sources (and the query passes the
emptiness validation), `chat` performs zero generation invocations and
returns the fixed fallback answer instructing the caller to index documents
first, together with an empty sources list. -/
theorem c2_empty_sources_fallback (embedOne : List Char → List ℚ)
    (search : List ℚ → Nat → List Hit) (generate : GenCall → String)
    (query : List Char) (top_k max_new_tokens : Nat)
    (hq : (pyStrip query).isEmpty = false)
    (hr : retrieve embedOne search query top_k = []) :
    chat embedOne search generate query top_k max_new_tokens =
      (ChatOutcome.response
        ("No relevant documents found. Please index some documents first.") [],
       []) := by
  unfold chat
  rw [hr]
  simp [hq, fallbackAnswer]

theorem c2_empty_sources_fallback_witness :
    chat (fun _ => []) (fun _ _ => []) (fun _ => ("ans")) (("hi").toList) 5 16 =
      (ChatOutcome.response
        ("No relevant documents found. Please index some documents first.") [],
       []) :=
  c2_empty_sources_fallback (fun _ => []) (fun _ _ => []) (fun _ => ("ans"))
    (("hi").toList) 5 16 (by decide) rfl

/-- C8: when retrieval returns a non-empty source list, the single
generation invocation receives as context exactly the sources' texts in
rank order joined by the fixed separator, and the user turn of the prompt
is the context block followed by the literal query string. -/
theorem c8_context_join (embedOne : List Char → List ℚ)
    (search : List ℚ → Nat → List Hit) (generate : GenCall → String)
    (query : List Char) (top_k max_new_tokens : Nat)
    (hq : (pyStrip query).isEmpty = false)
    (hr : retrieve embedOne search query top_k ≠ []) :
    ((chat embedOne search generate query top_k max_new_tokens).2 =
      [⟨query,
        List.intercalate contextSep
          ((retrieve embedOne search query top_k).map (fun s => s.text)),
        max_new_tokens⟩])
    ∧ ∃ pre mid : List Char,
        userContent query
          (List.intercalate contextSep
            ((retrieve embedOne search query top_k).map (fun s => s.text))) =
          pre ++ (List.intercalate contextSep
            ((retrieve embedOne search query top_k).map (fun s => s.text)))
            ++ mid ++ query := by
  constructor
  · cases hl : retrieve embedOne search query top_k with
    | nil => exact absurd hl hr
    | cons a l => simp [chat, hq, hl, joinContext]
  · exact ⟨("Context:\n").toList, ("\n\nQuestion: ").toList, rfl⟩

theorem c8_context_join_witness :
    ((chat (fun _ => []) (fun _ _ => [hit0]) (fun _ => ("a"))
        (("what").toList) 5 16).2 =
      [⟨("what").toList,
        List.intercalate contextSep
          ((retrieve (fun _ => []) (fun _ _ => [hit0]) (("what").toList) 5).map
            (fun s => s.text)),
        16⟩])
    ∧ ∃ pre mid : List Char,
        userContent (("what").toList)
          (List.intercalate contextSep
            ((retrieve (fun _ => []) (fun _ _ => [hit0]) (("what").toList) 5).map
              (fun s => s.text))) =
          pre ++ (List.intercalate contextSep
            ((retrieve (fun _ => []) (fun _ _ => [hit0]) (("what").toList) 5).map
              (fun s => s.text)))
            ++ mid ++ (("what").toList) :=
  c8_context_join (fun _ => []) (fun _ _ => [hit0]) (fun _ => ("a"))
    (("what").toList) 5 16 (by decide) (by decide)

/-- `file.filename.lower().endswith((".pdf", ".txt"))` (main.py:219);
`str.lower()` is modelled on ASCII by `Char.toLower`, which agrees with
Python on the extension characters. -/
def validExt (filename : List Char) : Bool :=
  (".pdf").toList.isSuffixOf (filename.map Char.toLower) ||
  (".txt").toList.isSuffixOf (filename.map Char.toLower)

def extDetail : String := "Only PDF and TXT files are supported."

def emptyTextDetail : String := "Could not extract text from the file."

/-- The success message of `POST /index` (main.py:251):
`f"Successfully indexed '{file.filename}'"`. -/
def successMessage (filename : List Char) : String :=
  ("Successfully indexed \x27") ++ (String.mk filename) ++ ("\x27")

/-- The point list `index_document` builds (main.py:233-245): one
`PointStruct` per `(idx, (chunk, emb))` of `enumerate(zip(chunks,
embeddings))` — `zip` truncates to the shorter list — with a freshly minted
id, `str(uuid.uuid4())`, modelled by the id supply `ids` applied to the
enumeration index. -/
def buildPoints (filename : List Char) (docId : String) (ids : Nat → String) :
    Nat → List (List Char) → List (List ℚ) → List Point
  | _, [], _ => []
  | _, _ :: _, [] => []
  | idx, chunk :: chunks, emb :: embs =>
    { id := ids idx
      vector := emb
      payload := { text := some chunk
                   source := some filename
                   document_id := some docId
                   chunk_id := some idx } } ::
      buildPoints filename docId ids (idx + 1) chunks embs

/-- Modelled from the spec: the Vector Index Adapter upsert of a single
point (qdrant client code, not under src/) is identity-based — a point
whose id was already seen overwrites that point in place, a point with a
new id is appended. -/
def upsertPoint (coll : List Point) (p : Point) : List Point :=
  if coll.any (fun q => q.id == p.id) then
    coll.map (fun q => if q.id == p.id then p else q)
  else coll ++ [p]

/-- Modelled from the spec: `_qdrant.upsert(collection_name, points)`
applies the single-point upserts in order. -/
def upsertPoints (coll : List Point) (ps : List Point) : List Point :=
  ps.foldl upsertPoint coll

/-- Outcome of the `POST /index` handler: an `HTTPException` or an
`IndexResponse`. -/
inductive IndexOutcome where
  | error (status : Nat) (detail : String)
  | ok (message : String) (chunks_indexed : Nat) (document_id : String)
deriving DecidableEq

/-- The `POST /index` handler (main.py:213-254) paired with the updated
collection contents.  Text extraction (PyMuPDF / UTF-8 decode) is an
external capability, so `extracted` is its result for this upload; `docId`
models the document's `str(uuid.uuid4())`, `ids` the per-point uuid supply
and `embed` the `_embed` batch-encoding capability.  A `none` result means
the chunking loop did not terminate (excluded for every valid configuration
by `chunk_text_eq`). -/
def index_document (coll : List Point) (filename extracted : List Char)
    (docId : String) (ids : Nat → String)
    (embed : List (List Char) → List (List ℚ)) (cs ov : Nat) :
    Option (IndexOutcome × List Point) :=
  if validExt filename = false then
    some (IndexOutcome.error 400 extDetail, coll)
  else if (pyStrip extracted).isEmpty then
    some (IndexOutcome.error 422 emptyTextDetail, coll)
  else
    match chunk_text cs ov extracted with
    | none => none
    | some chunks =>
      some (IndexOutcome.ok (successMessage filename) chunks.length docId,
        upsertPoints coll (buildPoints filename docId ids 0 chunks (embed chunks)))

/-- Qdrant distance metrics (`qdrant_client.models.Distance`). -/
inductive QdrantDistance where
  | cosine
  | dot
  | euclid
deriving DecidableEq

/-- `VectorParams(size=dim, distance=...)` of the qdrant client. -/
structure VectorParams where
  size : Nat
  distance : QdrantDistance
deriving DecidableEq

/-- `_ensure_collection` (main.py:82-93) acting on the qdrant server state,
modelled (from the spec's Vector Index Adapter contract, the client code
not being under src/) as the list of named collections with their vector
parameters: if the configured name is not among the existing collection
names, create it with the embedding adapter's declared output dimension
`dim` and the cosine metric; otherwise leave the state unchanged. -/
def ensure_collection (name : String) (dim : Nat)
    (st : List (String × VectorParams)) : List (String × VectorParams) :=
  if (st.map (fun c => c.1)).contains name = false then
    st ++ [(name, ⟨dim, QdrantDistance.cosine⟩)]
  else st

/-- C7: `_ensure_collection` is idempotent: if the configured collection
name is already among the existing collections it changes nothing; if it is
absent it creates the collection with vector dimension equal to the
embedding adapter's declared output dimension and the cosine metric; and
running it twice leaves exactly the state of running it once. -/
theorem c7_ensure_collection_idempotent (name : String) (dim : Nat)
    (st : List (String × VectorParams)) :
    ((st.map (fun c => c.1)).contains name = true →
      ensure_collection name dim st = st)
    ∧ ((st.map (fun c => c.1)).contains name = false →
      ensure_collection name dim st =
        st ++ [(name, ⟨dim, QdrantDistance.cosine⟩)])
    ∧ ensure_collection name dim (ensure_collection name dim st) =
        ensure_collection name dim st := by
  have htrue : (st.map (fun c => c.1)).contains name = true →
      ensure_collection name dim st = st := by
    intro h
    unfold ensure_collection
    rw [if_neg (fun hf => Bool.noConfusion (h.symm.trans hf))]
  refine ⟨htrue, fun h => ?_, ?_⟩
  · unfold ensure_collection
    rw [if_pos h]
  · by_cases hc : (st.map (fun c => c.1)).contains name = false
    · have h1 : ensure_collection name dim st =
          st ++ [(name, ⟨dim, QdrantDistance.cosine⟩)] := by
        unfold ensure_collection
        rw [if_pos hc]
      have hmem : (((st ++ [(name, (⟨dim, QdrantDistance.cosine⟩ : VectorParams))]).map
          (fun c => c.1)).contains name) = true := by
        simp
      rw [h1]
      unfold ensure_collection
      rw [if_neg (fun hf => Bool.noConfusion (hmem.symm.trans hf))]
    · have hc' : (st.map (fun c => c.1)).contains name = true := by
        cases hb : (st.map (fun c => c.1)).contains name
        · exact absurd hb hc
        · rfl
      rw [htrue hc', htrue hc']

theorem c7_ensure_collection_idempotent_witness :
    (ensure_collection ("rag_documents") 384 [] =
      [(("rag_documents"), ⟨384, QdrantDistance.cosine⟩)])
    ∧ ensure_collection ("rag_documents") 384
        (ensure_collection ("rag_documents") 384 []) =
      ensure_collection ("rag_documents") 384 [] :=
  ⟨(c7_ensure_collection_idempotent ("rag_documents") 384 []).2.1 (by decide),
   (c7_ensure_collection_idempotent ("rag_documents") 384 []).2.2⟩

/-- C5: every validation failure is rejected with its 4xx status before any
state change: a filename not ending (case-insensitively) in ".pdf" or
".txt" gives 400 with the collection untouched; an upload whose extracted
text is empty or whitespace-only gives 422 with the collection untouched;
an empty or whitespace-only chat query gives 400 with zero generation
invocations. -/
theorem c5_validation_rejected (coll : List Point) (filename extracted : List Char)
    (docId : String) (ids : Nat → String)
    (embed : List (List Char) → List (List ℚ)) (cs ov : Nat)
    (embedOne : List Char → List ℚ) (search : List ℚ → Nat → List Hit)
    (generate : GenCall → String) (query : List Char)
    (top_k max_new_tokens : Nat) :
    (validExt filename = false →
      index_document coll filename extracted docId ids embed cs ov =
        some (IndexOutcome.error 400 extDetail, coll))
    ∧ (validExt filename = true → (pyStrip extracted).isEmpty = true →
      index_document coll filename extracted docId ids embed cs ov =
        some (IndexOutcome.error 422 emptyTextDetail, coll))
    ∧ ((pyStrip query).isEmpty = true →
      chat embedOne search generate query top_k max_new_tokens =
        (ChatOutcome.httpError 400 emptyQueryDetail, [])) := by
  refine ⟨fun h => ?_, fun h1 h2 => ?_, fun h => ?_⟩
  · simp [index_document, h]
  · simp [index_document, h1, h2]
  · simp [chat, h]

theorem c5_validation_rejected_witness :
    (index_document [] (("notes.docx").toList) (("body").toList) ("d")
        (fun _ => ("p")) (fun _ => []) 512 64 =
      some (IndexOutcome.error 400 extDetail, []))
    ∧ (index_document [] (("a.txt").toList) (("   ").toList) ("d")
        (fun _ => ("p")) (fun _ => []) 512 64 =
      some (IndexOutcome.error 422 emptyTextDetail, []))
    ∧ chat (fun _ => []) (fun _ _ => []) (fun _ => ("a")) (("  ").toList) 5 16 =
        (ChatOutcome.httpError 400 emptyQueryDetail, []) :=
  ⟨(c5_validation_rejected [] (("notes.docx").toList) (("body").toList) ("d")
      (fun _ => ("p")) (fun _ => []) 512 64 (fun _ => []) (fun _ _ => [])
      (fun _ => ("a")) [] 5 16).1 (by decide),
   (c5_validation_rejected [] (("a.txt").toList) (("   ").toList) ("d")
      (fun _ => ("p")) (fun _ => []) 512 64 (fun _ => []) (fun _ _ => [])
      (fun _ => ("a")) [] 5 16).2.1 (by decide) (by decide),
   (c5_validation_rejected [] [] [] ("d")
      (fun _ => ("p")) (fun _ => []) 512 64 (fun _ => []) (fun _ _ => [])
      (fun _ => ("a")) (("  ").toList) 5 16).2.2 (by decide)⟩

theorem buildPoints_length (filename : List Char) (docId : String)
    (ids : Nat → String) :
    ∀ (chunks : List (List Char)) (idx : Nat) (embs : List (List ℚ)),
      (buildPoints filename docId ids idx chunks embs).length =
        min chunks.length embs.length := by
  intro chunks
  induction chunks with
  | nil => intro idx embs; simp [buildPoints]
  | cons c cs ih =>
    intro idx embs
    cases embs with
    | nil => simp [buildPoints]
    | cons e es =>
      simp only [buildPoints, List.length_cons, ih (idx + 1) es]
      omega

theorem buildPoints_chunk_ids (filename : List Char) (docId : String)
    (ids : Nat → String) :
    ∀ (chunks : List (List Char)) (idx : Nat) (embs : List (List ℚ)),
      (buildPoints filename docId ids idx chunks embs).map
          (fun p => p.payload.chunk_id) =
        (List.range' idx (min chunks.length embs.length)).map some := by
  intro chunks
  induction chunks with
  | nil => intro idx embs; simp [buildPoints]
  | cons c cs ih =>
    intro idx embs
    cases embs with
    | nil => simp [buildPoints]
    | cons e es =>
      have hmin : min (c :: cs).length (e :: es).length =
          min cs.length es.length + 1 := by
        simp only [List.length_cons]
        omega
      simp only [buildPoints, List.map_cons, ih (idx + 1) es, hmin,
        List.range'_succ]

theorem buildPoints_payload (filename : List Char) (docId : String)
    (ids : Nat → String) :
    ∀ (chunks : List (List Char)) (idx : Nat) (embs : List (List ℚ)),
      ∀ p ∈ buildPoints filename docId ids idx chunks embs,
        p.payload.source = some filename ∧
          p.payload.document_id = some docId := by
  intro chunks
  induction chunks with
  | nil => intro idx embs p hp; simp [buildPoints] at hp
  | cons c cs ih =>
    intro idx embs p hp
    cases embs with
    | nil => simp [buildPoints] at hp
    | cons e es =>
      rw [buildPoints, List.mem_cons] at hp
      cases hp with
      | inl h => rw [h]; exact ⟨rfl, rfl⟩
      | inr h => exact ih (idx + 1) es p h

theorem buildPoints_id_mem (filename : List Char) (docId : String)
    (ids : Nat → String) :
    ∀ (chunks : List (List Char)) (idx : Nat) (embs : List (List ℚ)),
      ∀ p ∈ buildPoints filename docId ids idx chunks embs,
        ∃ i, idx ≤ i ∧ p.id = ids i := by
  intro chunks
  induction chunks with
  | nil => intro idx embs p hp; simp [buildPoints] at hp
  | cons c cs ih =>
    intro idx embs p hp
    cases embs with
    | nil => simp [buildPoints] at hp
    | cons e es =>
      rw [buildPoints, List.mem_cons] at hp
      cases hp with
      | inl h => exact ⟨idx, Nat.le_refl idx, by rw [h]⟩
      | inr h =>
        obtain ⟨i, hi, hid⟩ := ih (idx + 1) es p h
        exact ⟨i, by omega, hid⟩

theorem buildPoints_id_pairwise (filename : List Char) (docId : String)
    (ids : Nat → String) (hinj : ∀ i j, ids i = ids j → i = j) :
    ∀ (chunks : List (List Char)) (idx : Nat) (embs : List (List ℚ)),
      (buildPoints filename docId ids idx chunks embs).Pairwise
        (fun a b => a.id ≠ b.id) := by
  intro chunks
  induction chunks with
  | nil => intro idx embs; simp [buildPoints]
  | cons c cs ih =>
    intro idx embs
    cases embs with
    | nil => simp [buildPoints]
    | cons e es =>
      rw [buildPoints]
      refine List.Pairwise.cons ?_ (ih (idx + 1) es)
      intro b hb
      obtain ⟨i, hi, hid⟩ := buildPoints_id_mem filename docId ids cs (idx + 1) es b hb
      intro hEq
      rw [hid] at hEq
      have := hinj idx i hEq
      omega

theorem upsertPoints_append (ps : List Point) :
    ∀ coll : List Point,
      (∀ p ∈ ps, ∀ q ∈ coll, q.id ≠ p.id) →
      ps.Pairwise (fun a b => a.id ≠ b.id) →
      upsertPoints coll ps = coll ++ ps := by
  induction ps with
  | nil => intro coll _ _; simp [upsertPoints]
  | cons p ps ih =>
    intro coll hfresh hpw
    have hany : coll.any (fun q => q.id == p.id) = false := by
      rw [List.any_eq_false]
      intro q hq
      simpa using hfresh p (List.mem_cons_self p ps) q hq
    have hone : upsertPoint coll p = coll ++ [p] := by
      unfold upsertPoint
      rw [if_neg (fun hf => Bool.noConfusion (hany.symm.trans hf))]
    have hstep : upsertPoints coll (p :: ps) = upsertPoints (coll ++ [p]) ps := by
      unfold upsertPoints
      rw [List.foldl_cons, hone]
    rw [hstep, ih (coll ++ [p]) ?_ (List.Pairwise.sublist (List.sublist_cons_self p ps) hpw)]
    · simp
    · intro r hr q hq
      rcases List.mem_append.mp hq with hq1 | hq2
      · exact hfresh r (List.mem_cons_of_mem p hr) q hq1
      · rw [List.mem_singleton.mp hq2]
        exact (List.pairwise_cons.mp hpw).1 r hr

/-- Chunks of a valid run, as computed by `chunk_text_eq`. -/
theorem index_document_ok (coll : List Point) (filename extracted : List Char)
    (docId : String) (ids : Nat → String)
    (embed : List (List Char) → List (List ℚ)) (cs ov : Nat)
    (hov : ov < cs) (hext : validExt filename = true)
    (hne : (pyStrip extracted).isEmpty = false) :
    ∃ chunks : List (List Char),
      chunk_text cs ov extracted = some chunks ∧
      index_document coll filename extracted docId ids embed cs ov =
        some (IndexOutcome.ok (successMessage filename) chunks.length docId,
          upsertPoints coll
            (buildPoints filename docId ids 0 chunks (embed chunks))) := by
  refine ⟨_, chunk_text_eq cs ov extracted hov, ?_⟩
  unfold index_document
  rw [if_neg (fun hf => Bool.noConfusion (hext.symm.trans hf)),
    if_neg (fun hf => Bool.noConfusion (hne.symm.trans hf)),
    chunk_text_eq cs ov extracted hov]

/-- C10: on a successful `POST /index`, if the embedding capability returns
one vector per input text, then `chunks_indexed` equals the number of
points upserted by the request, those points carry `chunk_id` values
exactly `0, 1, ..., chunks_indexed - 1` in chunk order, every payload's
`source` is the uploaded filename, and every payload's `document_id` is the
`document_id` of the response. -/
theorem c10_index_payloads (coll : List Point) (filename extracted : List Char)
    (docId : String) (ids : Nat → String)
    (embed : List (List Char) → List (List ℚ)) (cs ov : Nat)
    (hov : ov < cs) (hext : validExt filename = true)
    (hne : (pyStrip extracted).isEmpty = false)
    (hembed : ∀ ts, (embed ts).length = ts.length) :
    ∃ (chunks : List (List Char)) (points : List Point),
      chunk_text cs ov extracted = some chunks ∧
      points = buildPoints filename docId ids 0 chunks (embed chunks) ∧
      index_document coll filename extracted docId ids embed cs ov =
        some (IndexOutcome.ok (successMessage filename) chunks.length docId,
          upsertPoints coll points) ∧
      points.length = chunks.length ∧
      points.map (fun p => p.payload.chunk_id) =
        (List.range chunks.length).map some ∧
      ∀ p ∈ points,
        p.payload.source = some filename ∧
          p.payload.document_id = some docId := by
  obtain ⟨chunks, hchunks, hidx⟩ :=
    index_document_ok coll filename extracted docId ids embed cs ov hov hext hne
  have hmin : min chunks.length (embed chunks).length = chunks.length := by
    rw [hembed chunks]
    omega
  refine ⟨chunks, _, hchunks, rfl, hidx, ?_, ?_, ?_⟩
  · rw [buildPoints_length filename docId ids chunks 0 (embed chunks), hmin]
  · rw [buildPoints_chunk_ids filename docId ids chunks 0 (embed chunks), hmin,
      List.range_eq_range']
  · exact buildPoints_payload filename docId ids chunks 0 (embed chunks)

def fileBody : List Char := ("abcdefghijklmnopqrstuvwxyz0123").toList

theorem c10_index_payloads_witness :
    (64 < 512) ∧ validExt (("a.txt").toList) = true ∧
    (pyStrip fileBody).isEmpty = false ∧
    ∃ (chunks : List (List Char)) (points : List Point),
      chunk_text 512 64 fileBody = some chunks ∧
      points = buildPoints (("a.txt").toList) ("d") (fun i => String.mk (List.replicate i 'x'))
        0 chunks ((fun ts => ts.map (fun _ => ([] : List ℚ))) chunks) ∧
      index_document [] (("a.txt").toList) fileBody ("d")
          (fun i => String.mk (List.replicate i 'x'))
          (fun ts => ts.map (fun _ => ([] : List ℚ))) 512 64 =
        some (IndexOutcome.ok (successMessage (("a.txt").toList)) chunks.length ("d"),
          upsertPoints [] points) ∧
      points.length = chunks.length ∧
      points.map (fun p => p.payload.chunk_id) =
        (List.range chunks.length).map some ∧
      ∀ p ∈ points,
        p.payload.source = some (("a.txt").toList) ∧
          p.payload.document_id = some ("d") :=
  ⟨by decide, by decide, by decide,
   c10_index_payloads [] (("a.txt").toList) fileBody ("d")
     (fun i => String.mk (List.replicate i 'x'))
     (fun ts => ts.map (fun _ => ([] : List ℚ))) 512 64
     (by decide) (by decide) (by decide)
     (fun ts => by rw [List.length_map])⟩

/-- C6: indexing is additive, never replacing: every successful
`POST /index` mints a fresh point id per chunk, so indexing the same file
twice adds exactly `2 * chunks_indexed` points, and no previously indexed
point is overwritten or removed (the old collection is an unchanged prefix
of the new one).  Global freshness and distinctness of the minted `uuid4`
ids are hypotheses of the model, since uuid collision-freedom is
probabilistic rather than logical. -/
theorem c6_reindex_additive (coll : List Point) (filename extracted : List Char)
    (d1 d2 : String) (ids1 ids2 : Nat → String)
    (embed : List (List Char) → List (List ℚ)) (cs ov : Nat)
    (hov : ov < cs) (hext : validExt filename = true)
    (hne : (pyStrip extracted).isEmpty = false)
    (hembed : ∀ ts, (embed ts).length = ts.length)
    (hinj1 : ∀ i j, ids1 i = ids1 j → i = j)
    (hinj2 : ∀ i j, ids2 i = ids2 j → i = j)
    (hfresh1 : ∀ i, ∀ p ∈ coll, p.id ≠ ids1 i)
    (hfresh2 : ∀ i, ∀ p ∈ coll, p.id ≠ ids2 i)
    (hdisj : ∀ i j, ids2 i ≠ ids1 j) :
    ∃ (n : Nat) (m1 m2 : String) (coll1 coll2 : List Point),
      index_document coll filename extracted d1 ids1 embed cs ov =
        some (IndexOutcome.ok m1 n d1, coll1) ∧
      index_document coll1 filename extracted d2 ids2 embed cs ov =
        some (IndexOutcome.ok m2 n d2, coll2) ∧
      coll1.length = coll.length + n ∧
      coll2.length = coll.length + 2 * n ∧
      ∃ added : List Point, coll2 = coll ++ added := by
  obtain ⟨chunks, hchunks, hidx1⟩ :=
    index_document_ok coll filename extracted d1 ids1 embed cs ov hov hext hne
  have hmin : min chunks.length (embed chunks).length = chunks.length := by
    rw [hembed chunks]
    exact Nat.min_self _
  have hlen1 : (buildPoints filename d1 ids1 0 chunks (embed chunks)).length =
      chunks.length := by
    rw [buildPoints_length filename d1 ids1 chunks 0 (embed chunks), hmin]
  have happ1 : upsertPoints coll (buildPoints filename d1 ids1 0 chunks (embed chunks)) =
      coll ++ buildPoints filename d1 ids1 0 chunks (embed chunks) := by
    apply upsertPoints_append
    · intro p hp q hq
      obtain ⟨i, _, hid⟩ :=
        buildPoints_id_mem filename d1 ids1 chunks 0 (embed chunks) p hp
      rw [hid]
      exact hfresh1 i q hq
    · exact buildPoints_id_pairwise filename d1 ids1 hinj1 chunks 0 (embed chunks)
  rw [happ1] at hidx1
  obtain ⟨chunks2, hchunks2, hidx2⟩ :=
    index_document_ok (coll ++ buildPoints filename d1 ids1 0 chunks (embed chunks))
      filename extracted d2 ids2 embed cs ov hov hext hne
  rw [hchunks] at hchunks2
  obtain rfl : chunks = chunks2 := Option.some.inj hchunks2
  have hlen2 : (buildPoints filename d2 ids2 0 chunks (embed chunks)).length =
      chunks.length := by
    rw [buildPoints_length filename d2 ids2 chunks 0 (embed chunks), hmin]
  have happ2 : upsertPoints (coll ++ buildPoints filename d1 ids1 0 chunks (embed chunks))
      (buildPoints filename d2 ids2 0 chunks (embed chunks)) =
      (coll ++ buildPoints filename d1 ids1 0 chunks (embed chunks)) ++
        buildPoints filename d2 ids2 0 chunks (embed chunks) := by
    apply upsertPoints_append
    · intro p hp q hq
      obtain ⟨i, _, hid⟩ :=
        buildPoints_id_mem filename d2 ids2 chunks 0 (embed chunks) p hp
      rw [hid]
      rcases List.mem_append.mp hq with hq1 | hq2
      · exact hfresh2 i q hq1
      · obtain ⟨j, _, hjd⟩ :=
          buildPoints_id_mem filename d1 ids1 chunks 0 (embed chunks) q hq2
        rw [hjd]
        exact fun hEq => hdisj i j (hEq.symm)
    · exact buildPoints_id_pairwise filename d2 ids2 hinj2 chunks 0 (embed chunks)
  rw [happ2] at hidx2
  refine ⟨chunks.length, successMessage filename, successMessage filename,
    coll ++ buildPoints filename d1 ids1 0 chunks (embed chunks),
    (coll ++ buildPoints filename d1 ids1 0 chunks (embed chunks)) ++
      buildPoints filename d2 ids2 0 chunks (embed chunks),
    hidx1, hidx2, ?_, ?_,
    buildPoints filename d1 ids1 0 chunks (embed chunks) ++
      buildPoints filename d2 ids2 0 chunks (embed chunks), ?_⟩
  · rw [List.length_append, hlen1]
  · rw [List.length_append, List.length_append, hlen1, hlen2]
    omega
  · rw [List.append_assoc]

theorem c6_reindex_additive_witness :
    ∃ (n : Nat) (m1 m2 : String) (coll1 coll2 : List Point),
      index_document [] (("a.txt").toList) fileBody ("d1")
          (fun i => String.mk (List.replicate (2 * i) 'x'))
          (fun ts => ts.map (fun _ => ([] : List ℚ))) 512 64 =
        some (IndexOutcome.ok m1 n ("d1"), coll1) ∧
      index_document coll1 (("a.txt").toList) fileBody ("d2")
          (fun i => String.mk (List.replicate (2 * i + 1) 'x'))
          (fun ts => ts.map (fun _ => ([] : List ℚ))) 512 64 =
        some (IndexOutcome.ok m2 n ("d2"), coll2) ∧
      coll1.length = ([] : List Point).length + n ∧
      coll2.length = ([] : List Point).length + 2 * n ∧
      ∃ added : List Point, coll2 = ([] : List Point) ++ added :=
  c6_reindex_additive [] (("a.txt").toList) fileBody ("d1") ("d2")
    (fun i => String.mk (List.replicate (2 * i) 'x'))
    (fun i => String.mk (List.replicate (2 * i + 1) 'x'))
    (fun ts => ts.map (fun _ => ([] : List ℚ))) 512 64
    (by decide) (by decide) (by decide)
    (fun ts => by rw [List.length_map])
    (by
      intro i j h
      have h2 : List.replicate (2 * i) 'x' = List.replicate (2 * j) 'x' :=
        congrArg String.data h
      have h3 := congrArg List.length h2
      simp only [List.length_replicate] at h3
      omega)
    (by
      intro i j h
      have h2 : List.replicate (2 * i + 1) 'x' = List.replicate (2 * j + 1) 'x' :=
        congrArg String.data h
      have h3 := congrArg List.length h2
      simp only [List.length_replicate] at h3
      omega)
    (by intro i p hp; simp at hp)
    (by intro i p hp; simp at hp)
    (by
      intro i j h
      have h2 : List.replicate (2 * i + 1) 'x' = List.replicate (2 * j) 'x' :=
        congrArg String.data h
      have h3 := congrArg List.length h2
      simp only [List.length_replicate] at h3
      omega)

end RagBackend
